import Mathlib

/-!
# Verification of the AgentMesh-Net task indexer core

Shallow embedding, in Lean 4, of the task-indexer core of the
`AgentMesh-Net/indexer-go` repository: the keccak256 content hash
(`golang.org/x/crypto/sha3` legacy Keccak, as used by
`internal/api/handlers_tasks_v2.go` and `internal/ethutil`), the structured
task/accept HTTP handlers (`PostTask`, `PostTaskAccept`), the task store
update operations (`internal/store/repo.go`), and the chain event watcher
handlers (`internal/chain/watcher.go`).

Machine integers are modelled as `Nat`/`Int` with explicit reduction
`% 2 ^ 64` where 64-bit overflow matters.  The PostgreSQL `tasks` table is
modelled as a `List TaskRow`; a SQL `UPDATE ... WHERE col = v` is a `List.map`
that rewrites every matching row and a `QueryRow ... WHERE col = v` is a
`List.find?`.  Wall-clock values (`time.Now()`, `now()`) are explicit
parameters.
-/

/-! ## Keccak-256 (legacy padding), as in golang.org/x/crypto/sha3
`sha3.NewLegacyKeccak256` -- rate 136 bytes, domain-separation byte `0x01`,
output 32 bytes.  Lanes are 64-bit words, stored little-endian. -/

/-- The 64-bit mask `2^64 - 1`. -/
def mask64 : Nat := 18446744073709551615

/-- Rotate a 64-bit lane left by `n` (for `0 ≤ n < 64`). -/
def rotl64 (x n : Nat) : Nat :=
  (((x <<< n) % 18446744073709551616) ||| (x >>> (64 - n)))

/-- One step of the degree-8 LFSR `x^8 + x^6 + x^5 + x^4 + 1` that generates
the Keccak round-constant bits (FIPS 202, Algorithm 5). -/
def keccakLFSRStep (r : Nat) : Nat :=
  let r2 := r <<< 1
  if r2 ≥ 256 then (r2 % 256).xor 0x71 else r2

/-- The LFSR state after `n` steps, starting from 1. -/
def keccakLFSR (n : Nat) : Nat :=
  (List.range n).foldl (fun r _ => keccakLFSRStep r) 1

/-- Round constant of round `r`: bit `2^j - 1` of the lane is the low LFSR
bit at step `j + 7*r`, for `j = 0..6`. -/
def keccakRCAt (r : Nat) : Nat :=
  (List.range 7).foldl
    (fun acc j => acc ||| ((keccakLFSR (j + 7 * r) % 2) <<< (2 ^ j - 1))) 0

/-- Keccak round constants (iota step), the 24 standard constants. -/
def keccakRC : List Nat :=
  (List.range 24).map keccakRCAt

/-- Rho rotation offsets, flattened with lane index `i = x + 5*y`, generated
by the standard walk `(x,y) ← (y, (2x+3y) mod 5)` from `(1,0)` with offset
`(t+1)(t+2)/2 mod 64` at step `t` (lane `(0,0)` keeps offset 0). -/
def keccakRho : List Nat :=
  let walk :=
    (List.range 24).foldl
      (fun (st : Nat × Nat × List (Nat × Nat)) t =>
        let x := st.1
        let y := st.2.1
        (y, (2 * x + 3 * y) % 5,
          (x + 5 * y, (t + 1) * (t + 2) / 2 % 64) :: st.2.2))
      (1, 0, [])
  (List.range 25).map fun i =>
    ((walk.2.2.find? fun p => p.1 = i).map Prod.snd).getD 0

/-- Destination lane of the pi permutation for source lane `i = x + 5*y`:
`y + 5*((2x + 3y) mod 5)`. -/
def keccakPiDest (i : Nat) : Nat :=
  i / 5 + 5 * ((2 * (i % 5) + 3 * (i / 5)) % 5)

/-- Inverse of the pi lane permutation: output lane `j` reads input lane
`keccakPiInv[j]` (then rotated by that lane's rho offset). -/
def keccakPiInv : List Nat :=
  (List.range 25).map fun j =>
    (((List.range 25).find? fun i => keccakPiDest i = j).getD 0)

/-- Theta step of Keccak-f[1600]. -/
def keccakTheta (st : List Nat) : List Nat :=
  let c := (List.range 5).map fun x =>
    ((((st.getD x 0).xor (st.getD (x + 5) 0)).xor (st.getD (x + 10) 0)).xor
      (st.getD (x + 15) 0)).xor (st.getD (x + 20) 0)
  let d := (List.range 5).map fun x =>
    (c.getD ((x + 4) % 5) 0).xor (rotl64 (c.getD ((x + 1) % 5) 0) 1)
  (List.range 25).map fun i => (st.getD i 0).xor (d.getD (i % 5) 0)

/-- Combined rho and pi steps of Keccak-f[1600]. -/
def keccakRhoPi (st : List Nat) : List Nat :=
  (List.range 25).map fun j =>
    let i := keccakPiInv.getD j 0
    rotl64 (st.getD i 0) (keccakRho.getD i 0)

/-- Chi step of Keccak-f[1600] (`not` is xor with the 64-bit mask). -/
def keccakChi (b : List Nat) : List Nat :=
  (List.range 25).map fun i =>
    let row := 5 * (i / 5)
    let x := i % 5
    (b.getD i 0).xor
      (((b.getD (row + (x + 1) % 5) 0).xor mask64).land (b.getD (row + (x + 2) % 5) 0))

/-- One round of Keccak-f[1600] with round constant `rc`. -/
def keccakRound (st : List Nat) (rc : Nat) : List Nat :=
  let b := keccakChi (keccakRhoPi (keccakTheta st))
  match b with
  | [] => []
  | a0 :: rest => a0.xor rc :: rest

/-- The full Keccak-f[1600] permutation (24 rounds). -/
def keccakF (st : List Nat) : List Nat :=
  keccakRC.foldl keccakRound st

/-- Little-endian read of (up to) 8 bytes into one 64-bit lane. -/
def lane64OfBytes (bs : List Nat) : Nat :=
  bs.foldr (fun b acc => b + 256 * acc) 0

/-- XOR one rate-sized block (136 bytes = 17 lanes) into the state. -/
def keccakAbsorbBlock (st block : List Nat) : List Nat :=
  (List.range 25).map fun i =>
    if i < 17 then (st.getD i 0).xor (lane64OfBytes ((block.drop (8 * i)).take 8))
    else st.getD i 0

/-- Absorb a padded message (length a multiple of 136): XOR in and permute
one 136-byte block at a time. -/
def keccakAbsorb (st : List Nat) (padded : List Nat) : List Nat :=
  (List.range (padded.length / 136)).foldl
    (fun s i => keccakF (keccakAbsorbBlock s ((padded.drop (136 * i)).take 136))) st

/-- Legacy Keccak multi-rate padding: append `0x01`, zeros, final `0x80`
(a single `0x81` byte when exactly one padding byte is needed). -/
def keccakPad (msg : List Nat) : List Nat :=
  let padLen := 136 - msg.length % 136
  if padLen = 1 then msg ++ [0x81]
  else msg ++ 0x01 :: List.replicate (padLen - 2) 0 ++ [0x80]

/-- Split a 64-bit lane into 8 little-endian bytes. -/
def lane64ToBytes (x : Nat) : List Nat :=
  (List.range 8).map fun i => (x >>> (8 * i)) % 256

/-- keccak256 digest (32 bytes) of a byte sequence, mirroring
`ethutil.Keccak256` / the `keccak256Hex` helper's inner hash. -/
def keccak256 (msg : List Nat) : List Nat :=
  let st := keccakAbsorb (List.replicate 25 0) (keccakPad msg)
  ((st.take 4).map lane64ToBytes).flatten

/-- Lower-case hex digit for a nibble. -/
def hexDigitChar (n : Nat) : Char :=
  if n < 10 then Char.ofNat (48 + n) else Char.ofNat (87 + n)

/-- Lower-case hex characters of a byte list (`encoding/hex.EncodeToString`). -/
def hexChars (bs : List Nat) : List Char :=
  bs.foldr (fun b acc => hexDigitChar (b / 16 % 16) :: hexDigitChar (b % 16) :: acc) []

/-- The `hex.EncodeToString`: lower-case hex string of a byte list. -/
def hexEncode (bs : List Nat) : String :=
  String.mk (hexChars bs)

/-- UTF-8 encoding of one Unicode scalar value (Go `[]byte(string)`). -/
def utf8Char (c : Char) : List Nat :=
  let n := c.toNat
  if n < 128 then [n]
  else if n < 2048 then [192 ||| (n >>> 6), 128 ||| (n &&& 63)]
  else if n < 65536 then
    [224 ||| (n >>> 12), 128 ||| ((n >>> 6) &&& 63), 128 ||| (n &&& 63)]
  else
    [240 ||| (n >>> 18), 128 ||| ((n >>> 12) &&& 63),
     128 ||| ((n >>> 6) &&& 63), 128 ||| (n &&& 63)]

/-- UTF-8 bytes of a string, mirroring Go's `[]byte(s)` conversion. -/
def utf8Bytes (s : String) : List Nat :=
  s.data.foldr (fun c acc => utf8Char c ++ acc) []

/-- The `keccak256Hex` from `handlers_tasks_v2.go` (also `ethutil.Keccak256Hex`):
`"0x" + hex.EncodeToString(keccak256(data))`. -/
def keccak256Hex (data : List Nat) : String :=
  "0x" ++ hexEncode (keccak256 data)

set_option maxRecDepth 100000

-- Sanity: the digest of the empty message, the known keccak256 vector the
-- repository's own `TestKeccak256Hex` asserts.
example : keccak256Hex (utf8Bytes "") =
    "0xc5d2460186f7233c927e7db2dcc703c0e500b653ca82273b7bfad8045d85a470" := by
  decide

/-! ## String utilities used by the handlers

The Go code applies `strings.ToLower`, `strings.EqualFold` and
`strings.TrimSpace` only to strings that already matched an ASCII hex
pattern (or to decimal digit strings), so the ASCII behaviour modelled here
coincides with Go's Unicode behaviour at every call site. -/

/-- ASCII hex-digit test, the character class `[0-9a-fA-F]`. -/
def isHexDigitCh (c : Char) : Bool :=
  (48 ≤ c.toNat && c.toNat ≤ 57) || (97 ≤ c.toNat && c.toNat ≤ 102) ||
    (65 ≤ c.toNat && c.toNat ≤ 70)

/-- The case-insensitive anchored pattern `(?i)^0x[0-9a-fA-F]{n}$` shared by
`reHexAddr` (n = 40), `reHexHash` (n = 64) and `reHexSig` (n = 130) in
`handlers_tasks_v2.go`.  The `(?i)` flag also lets the literal `0x` match
`0X`. -/
def matchesHex (n : Nat) (s : String) : Bool :=
  match s.data with
  | '0' :: x :: rest =>
    (x == 'x' || x == 'X') && rest.length == n && rest.all isHexDigitCh
  | _ => false

/-- ASCII lower-casing of one character (`strings.ToLower` restricted to the
ASCII range, which covers every string it is applied to here). -/
def asciiToLower (c : Char) : Char :=
  if 65 ≤ c.toNat && c.toNat ≤ 90 then Char.ofNat (c.toNat + 32) else c

/-- The `strings.ToLower` on the ASCII strings the handlers lower-case. -/
def strToLower (s : String) : String :=
  String.mk (s.data.map asciiToLower)

/-- The `strings.EqualFold` on ASCII strings (case-insensitive equality). -/
def stringsEqualFold (a b : String) : Bool :=
  a.data.map asciiToLower == b.data.map asciiToLower

/-- ASCII whitespace test used by `strings.TrimSpace` (the inputs here are
decimal amount strings, never non-ASCII whitespace). -/
def isSpaceCh (c : Char) : Bool :=
  c == ' ' || c == '\t' || c == '\n' || c == (Char.ofNat 11) ||
    c == (Char.ofNat 12) || c == '\r'

/-- The `strings.TrimSpace`: strip leading and trailing whitespace. -/
def trimSpace (s : String) : String :=
  String.mk (((s.data.dropWhile isSpaceCh).reverse.dropWhile isSpaceCh).reverse)

/-- Parse a non-empty all-decimal digit run as a `Nat`. -/
def decDigits (cs : List Char) : Option Nat :=
  if cs ≠ [] && cs.all (fun c => 48 ≤ c.toNat && c.toNat ≤ 57) then
    some (cs.foldl (fun acc c => 10 * acc + (c.toNat - 48)) 0)
  else none

/-- The `new(big.Int).SetString(s, 10)`: optional sign followed by a non-empty
run of decimal digits (underscores are rejected for a non-zero base). -/
def bigIntSetString10 (s : String) : Option Int :=
  match s.data with
  | '+' :: rest => (decDigits rest).map Int.ofNat
  | '-' :: rest => (decDigits rest).map fun n => -(n : Int)
  | l => (decDigits l).map Int.ofNat

/-- A string with no ASCII upper-case letter: what "stored lower-cased"
means for the ASCII hex strings the handlers store. -/
def noUpper (s : String) : Bool :=
  s.data.all fun c => !(65 ≤ c.toNat && c.toNat ≤ 90)

/-! ## Data model (`internal/store`)

`TaskRow` and `Accept` mirror the structs in `internal/store/repo.go`
(phase 6A version, with signature and on-chain mirror fields).  Timestamps
are modelled as `Int`; the database `now()` of each update statement is an
explicit parameter. -/

/-- TaskRow lifecycle status constants from `internal/store/repo.go`. -/
def TaskStatusCreated : String := "created"

/-- The `TaskStatusAccepted` constant. -/
def TaskStatusAccepted : String := "accepted"

/-- The `TaskStatusAcceptedOnchain` constant. -/
def TaskStatusAcceptedOnchain : String := "accepted_onchain"

/-- The `TaskStatusReleased` constant. -/
def TaskStatusReleased : String := "released"

/-- The `TaskStatusRefunded` constant. -/
def TaskStatusRefunded : String := "refunded"

/-- A row of the `tasks` table (struct `store.Task`). -/
structure TaskRow where
  taskID : String
  taskHash : String
  chainID : Int
  escrowAddress : String
  employerAddress : String
  employerSignature : String
  workerAddress : String
  amountWei : String
  deadlineUnix : Int
  title : String
  status : String
  indexerFeeBPS : Int
  onchainCreatedAt : Option Int
  releasedAt : Option Int
  refundedAt : Option Int
  onchainTxHash : String
  createdAt : Int
  updatedAt : Int
deriving DecidableEq, Repr

/-- A row of the `accepts` table (struct `store.Accept`). -/
structure Accept where
  acceptID : String
  taskID : String
  workerAddress : String
  workerSignature : String
deriving DecidableEq, Repr

/-- A supported chain entry (`config.ChainConfig`). -/
structure ChainConfig where
  chainID : Int
  settlementContract : String
  minConfirmations : Int
deriving DecidableEq, Repr

/-- The configuration fields the task handlers read (`h.cfg`). -/
structure ApiConfig where
  supportedChains : List ChainConfig
  feeBPS : Int
deriving DecidableEq, Repr

/-! ## Store operations (`internal/store/repo.go`)

The `tasks` table is a `List TaskRow`; each SQL `UPDATE ... WHERE` rewrites
every matching row (and succeeds whether or not any row matched), each
`QueryRow` lookup is a `find?`. -/

/-- The `GetTask`: `SELECT ... FROM tasks WHERE task_id = $1`. -/
def getTask (db : List TaskRow) (taskID : String) : Option TaskRow :=
  db.find? fun t => t.taskID == taskID

/-- The `GetTaskByHash`: `SELECT ... FROM tasks WHERE task_hash = $1`. -/
def getTaskByHash (db : List TaskRow) (taskHash : String) : Option TaskRow :=
  db.find? fun t => t.taskHash == taskHash

/-- The `UpdateOnchainCreated`: `UPDATE tasks SET onchain_created_at=$1,
onchain_tx_hash=$2, updated_at=now() WHERE task_id=$3`. -/
def updateOnchainCreated (db : List TaskRow) (taskID txHash : String)
    (t now : Int) : List TaskRow :=
  db.map fun r =>
    if r.taskID = taskID then
      { r with onchainCreatedAt := some t, onchainTxHash := txHash, updatedAt := now }
    else r

/-- The `UpdateOnchainWorkerSet`: `UPDATE tasks SET worker_address=$1,
status='accepted_onchain', onchain_tx_hash=$3, updated_at=now()
WHERE task_hash=$4`. -/
def updateOnchainWorkerSet (db : List TaskRow) (taskHash workerAddress txHash : String)
    (now : Int) : List TaskRow :=
  db.map fun r =>
    if r.taskHash = taskHash then
      { r with workerAddress := workerAddress, status := TaskStatusAcceptedOnchain,
               onchainTxHash := txHash, updatedAt := now }
    else r

/-- The `UpdateOnchainReleased`: `UPDATE tasks SET status='released',
released_at=$2, onchain_tx_hash=$3, updated_at=now() WHERE task_hash=$4`. -/
def updateOnchainReleased (db : List TaskRow) (taskHash txHash : String)
    (t now : Int) : List TaskRow :=
  db.map fun r =>
    if r.taskHash = taskHash then
      { r with status := TaskStatusReleased, releasedAt := some t,
               onchainTxHash := txHash, updatedAt := now }
    else r

/-- The `UpdateOnchainRefunded`: `UPDATE tasks SET status='refunded',
refunded_at=$2, onchain_tx_hash=$3, updated_at=now() WHERE task_hash=$4`. -/
def updateOnchainRefunded (db : List TaskRow) (taskHash txHash : String)
    (t now : Int) : List TaskRow :=
  db.map fun r =>
    if r.taskHash = taskHash then
      { r with status := TaskStatusRefunded, refundedAt := some t,
               onchainTxHash := txHash, updatedAt := now }
    else r

/-! ## The task handlers (`internal/api/handlers_tasks_v2.go`)

`ethutil.VerifyPersonalSign` performs elliptic-curve public-key recovery
through `go-ethereum`'s secp256k1 bindings; the handlers are therefore
parametrised by its outcome classification.  The `ethutil` package returns
either success, an error satisfying `errors.Is(err, ErrSignerMismatch)`, or
one satisfying `errors.Is(err, ErrInvalidSignature)`; `otherError` models
the handler's remaining (unreachable from `ethutil`) error branch. -/

/-- Outcome classification of `ethutil.VerifyPersonalSign(message, sig,
expectedAddress)`. -/
inductive SigOutcome where
  | ok
  | signerMismatch
  | invalidSig
  | otherError (msg : String)
deriving DecidableEq, Repr

/-- A signature verifier: message bytes, 0x-hex signature and expected
address to an outcome (stands for `ethutil.VerifyPersonalSign`). -/
def SigVerifier : Type := List Nat → String → String → SigOutcome

/-- Result of `PostTask`: either `util.WriteError(w, status, code, msg)` or
the `store.Task` row handed to `InsertTask` (HTTP 201). -/
inductive PostTaskResult where
  | apiError (status : Nat) (code : String) (msg : String)
  | taskCreated (t : TaskRow)
deriving DecidableEq, Repr

/-- The `chain_id %d not supported (supported: %s)` message of `PostTask`. -/
def chainNotSupportedMsg (cfg : ApiConfig) (chainID : Int) : String :=
  "chain_id " ++ toString chainID ++ " not supported (supported: " ++
    String.intercalate "," (cfg.supportedChains.map fun c => toString c.chainID) ++ ")"

/-- The decoded body of `POST /v1/tasks` (struct `createTaskReq`; the
optional `payload` metadata map is unused by the handler). -/
structure CreateTaskReq where
  taskID : String
  title : String
  chainID : Int
  amountWei : String
  deadlineUnix : Int
  employerAddress : String
  taskHash : String
  escrowAddress : String
  signature : String
deriving DecidableEq, Repr

/-- The decoded body of `POST /v1/tasks/{taskID}/accept`
(struct `acceptTaskReq`). -/
structure AcceptTaskReq where
  acceptID : String
  workerAddress : String
  signature : String
deriving DecidableEq, Repr

/-- The `PostTask` (lines 77-191 of `handlers_tasks_v2.go`) after JSON
decoding, up to and including building the row passed to `InsertTask`.
The `verify` parameter stands for `ethutil.VerifyPersonalSign`; `createdAt`
and `updatedAt` of the produced row stand for the database `now()`. -/
def postTask (cfg : ApiConfig) (verify : SigVerifier) (req : CreateTaskReq)
    (now : Int) : PostTaskResult :=
  if req.taskID = "" then
    .apiError 400 "invalid_request" "task_id is required"
  else if req.chainID = 0 then
    .apiError 400 "invalid_request" "chain_id is required"
  else if !matchesHex 40 req.employerAddress then
    .apiError 400 "invalid_request" "employer_address must be 0x + 40 hex chars"
  else if !matchesHex 64 req.taskHash then
    .apiError 400 "invalid_request" "task_hash must be 0x + 64 hex chars"
  else
    let amtStr := trimSpace req.amountWei
    match bigIntSetString10 amtStr with
    | none => .apiError 400 "invalid_request" "amount_wei must be a positive integer string"
    | some amt =>
      if amt ≤ 0 then
        .apiError 400 "invalid_request" "amount_wei must be a positive integer string"
      else if req.deadlineUnix ≤ 0 || req.deadlineUnix > 4611686018427387904 then
        .apiError 400 "invalid_request" "deadline_unix out of valid range"
      else
        let expected := keccak256Hex (utf8Bytes req.taskID)
        if !stringsEqualFold req.taskHash expected then
          .apiError 400 "invalid_request"
            ("task_hash mismatch: expected " ++ expected ++ ", got " ++ req.taskHash)
        else if req.signature = "" then
          .apiError 401 "unauthorized" "signature is required"
        else if !matchesHex 130 req.signature then
          .apiError 400 "invalid_request" "signature must be 0x + 130 hex chars"
        else
          match verify (utf8Bytes req.taskID) req.signature req.employerAddress with
          | .signerMismatch | .invalidSig =>
            .apiError 401 "unauthorized"
              "signature verification failed: signer does not match employer_address"
          | .otherError m => .apiError 400 "invalid_request" ("signature error: " ++ m)
          | .ok =>
            match cfg.supportedChains.find? (fun c => c.chainID == req.chainID) with
            | none => .apiError 400 "invalid_request" (chainNotSupportedMsg cfg req.chainID)
            | some c =>
              let escrow := if req.escrowAddress = "" then c.settlementContract
                            else req.escrowAddress
              .taskCreated
                { taskID := req.taskID
                  taskHash := strToLower req.taskHash
                  chainID := req.chainID
                  escrowAddress := escrow
                  employerAddress := strToLower req.employerAddress
                  employerSignature := strToLower req.signature
                  workerAddress := ""
                  amountWei := amtStr
                  deadlineUnix := req.deadlineUnix
                  title := req.title
                  status := TaskStatusCreated
                  indexerFeeBPS := cfg.feeBPS
                  onchainCreatedAt := none
                  releasedAt := none
                  refundedAt := none
                  onchainTxHash := ""
                  createdAt := now
                  updatedAt := now }

/-- Result of `PostTaskAccept`: an error response, or the `store.Accept`
row handed to `InsertAccept` (the handler then calls
`UpdateTaskWorker(taskID, lower(worker), "accepted")` and answers 201). -/
inductive PostAcceptResult where
  | apiError (status : Nat) (code : String) (msg : String)
  | acceptCreated (a : Accept)
deriving DecidableEq, Repr

/-- The `PostTaskAccept` (lines 247-333 of `handlers_tasks_v2.go`) after JSON
decoding, up to building the row passed to `InsertAccept`.  `db` models the
`tasks` table read by `GetTask`. -/
def postTaskAccept (verify : SigVerifier) (db : List TaskRow) (taskID : String)
    (req : AcceptTaskReq) : PostAcceptResult :=
  if req.acceptID = "" then
    .apiError 400 "invalid_request" "accept_id is required"
  else if !matchesHex 40 req.workerAddress then
    .apiError 400 "invalid_request" "worker_address must be 0x + 40 hex chars"
  else if req.signature = "" then
    .apiError 401 "unauthorized" "signature is required"
  else if !matchesHex 130 req.signature then
    .apiError 400 "invalid_request" "signature must be 0x + 130 hex chars"
  else
    match verify (utf8Bytes (taskID ++ req.acceptID)) req.signature req.workerAddress with
    | .signerMismatch | .invalidSig =>
      .apiError 401 "unauthorized"
        "signature verification failed: signer does not match worker_address"
    | .otherError m => .apiError 400 "invalid_request" ("signature error: " ++ m)
    | .ok =>
      match getTask db taskID with
      | none => .apiError 404 "not_found" "task not found"
      | some task =>
        if task.status ≠ TaskStatusCreated then
          .apiError 409 "conflict"
            ("task is not in \x27created\x27 state (current: " ++ task.status ++ ")")
        else
          .acceptCreated
            { acceptID := req.acceptID
              taskID := taskID
              workerAddress := strToLower req.workerAddress
              workerSignature := strToLower req.signature }

/-! ## Chain event watcher (`internal/chain/watcher.go`)

A delivered log (`types.Log`) carries the removed flag, its block number,
its topics (32-byte words) and the transaction hash.  `handleLog` is
modelled as a pure decision over the log and the chain head fetched by
`client.BlockNumber` (only consulted when `minConfirmations > 0`); the
event handlers are pure transformers of the `tasks` table.  All byte-level
topic decoding mirrors `go-ethereum`:  `common.Hash.Hex()` is `0x` plus
lower-case hex; `common.BytesToAddress` keeps the last 20 bytes;
`common.Address.Hex()` is the EIP-55 checksummed (mixed-case) rendering. -/

/-- A delivered `types.Log`. -/
structure EthLog where
  removed : Bool
  blockNumber : Nat
  topics : List (List Nat)
  txHash : List Nat
deriving DecidableEq, Repr

/-- The `taskHashFromTopic`: a bytes32 topic as a 0x-prefixed hex string. -/
def taskHashFromTopic (topic : List Nat) : String :=
  "0x" ++ hexEncode topic

/-- The `vLog.TxHash.Hex()` (`common.Hash.Hex`): 0x-prefixed lower-case hex. -/
def txHashHex (log : EthLog) : String :=
  "0x" ++ hexEncode log.txHash

/-- The `common.BytesToAddress`: keep the last 20 bytes, left-padding with
zeros when shorter. -/
def bytesToAddress (b : List Nat) : List Nat :=
  let tail := b.drop (b.length - 20)
  List.replicate (20 - tail.length) 0 ++ tail

/-- The `common.Address.Hex()`: EIP-55 checksummed rendering — hex digits whose
matching nibble of `keccak256(lowercaseHex)` exceeds 7 are upper-cased. -/
def addressHex (addr : List Nat) : String :=
  let cs := hexChars addr
  let h := keccak256 (cs.map Char.toNat)
  let checked := (List.range cs.length).map fun p =>
    let c := cs.getD p ' '
    let hb := h.getD (p / 2) 0
    let nib := if p % 2 = 0 then hb / 16 else hb % 16
    if 57 < c.toNat && 7 < nib then Char.ofNat (c.toNat - 32) else c
  String.mk ('0' :: 'x' :: checked)

/-- The four settlement-contract events of `settlementABIJSON`. -/
inductive EventKind where
  | created
  | workerSet
  | released
  | refunded
deriving DecidableEq, Repr

/-- Canonical event signature of each ABI event, as hashed by
`abi.JSON(...)` to form `Events[name].ID`. -/
def eventSig : EventKind → String
  | .created => "Created(bytes32,address,uint256,uint64)"
  | .workerSet => "WorkerSet(bytes32,address)"
  | .released => "Released(bytes32)"
  | .refunded => "Refunded(bytes32)"

/-- The `w.parsedABI.Events[name].ID`: keccak256 of the canonical signature. -/
def eventIDTopic (k : EventKind) : List Nat :=
  keccak256 (utf8Bytes (eventSig k))

/-- What `handleLog` decides to do with one delivered log. -/
inductive HandleDecision where
  | skippedRemoved
  | waitingConfirmations
  | noTopics
  | dispatched (k : EventKind)
  | ignoredUnknown
deriving DecidableEq, Repr

/-- The `handleLog` (lines 202-241 of `watcher.go`) as a decision function.
`head` is the chain head `client.BlockNumber` returns when consulted
(a fetch error also drops the log; that transport path is not modelled).
The Go comparison is `currentBlock < vLog.BlockNumber+uint64(minConf)`
in `uint64` arithmetic, hence the explicit `% 2^64`. -/
def handleLog (minConfirmations : Int) (head : Nat) (log : EthLog) : HandleDecision :=
  if log.removed then .skippedRemoved
  else if minConfirmations > 0 &&
      decide (head < (log.blockNumber + minConfirmations.toNat) % 18446744073709551616) then
    .waitingConfirmations
  else
    match log.topics with
    | [] => .noTopics
    | t0 :: _ =>
      if t0 = eventIDTopic .created then .dispatched .created
      else if t0 = eventIDTopic .workerSet then .dispatched .workerSet
      else if t0 = eventIDTopic .released then .dispatched .released
      else if t0 = eventIDTopic .refunded then .dispatched .refunded
      else .ignoredUnknown

/-- The `onCreated` (lines 250-274 of `watcher.go`).  Returns the new `tasks`
table and whether the `unexpected_onchain_create` audit line was logged
(`GetTaskByHash` returned `ErrNotFound`, whose message "object not found"
contains "not found").  `blockTime` is the handler's `time.Now()`; `now`
is the database clock of the update statement. -/
def onCreated (db : List TaskRow) (log : EthLog) (blockTime now : Int) :
    List TaskRow × Bool :=
  match log.topics with
  | _t0 :: t1 :: _ =>
    let taskHash := taskHashFromTopic t1
    match getTaskByHash db taskHash with
    | none => (db, true)
    | some task => (updateOnchainCreated db task.taskID (txHashHex log) blockTime now, false)
  | _ => (db, false)

/-- The `onWorkerSet` (lines 276-289 of `watcher.go`): update worker and status
by task hash, unconditionally; the worker address is the lower-cased EIP-55
rendering of the last 20 bytes of topic 2. -/
def onWorkerSet (db : List TaskRow) (log : EthLog) (now : Int) : List TaskRow :=
  match log.topics with
  | _t0 :: t1 :: t2 :: _ =>
    updateOnchainWorkerSet db (taskHashFromTopic t1)
      (strToLower (addressHex (bytesToAddress t2))) (txHashHex log) now
  | _ => db

/-- The `onReleased` (lines 291-304 of `watcher.go`).  `blockTime` is the
handler's `time.Now()` written into `released_at`. -/
def onReleased (db : List TaskRow) (log : EthLog) (blockTime now : Int) : List TaskRow :=
  match log.topics with
  | _t0 :: t1 :: _ =>
    updateOnchainReleased db (taskHashFromTopic t1) (txHashHex log) blockTime now
  | _ => db

/-- The `onRefunded` (lines 306-319 of `watcher.go`). -/
def onRefunded (db : List TaskRow) (log : EthLog) (blockTime now : Int) : List TaskRow :=
  match log.topics with
  | _t0 :: t1 :: _ =>
    updateOnchainRefunded db (taskHashFromTopic t1) (txHashHex log) blockTime now
  | _ => db

/-! ## Helper lemmas -/

/-- The `Char.ofNat` round-trips on codepoints below the surrogate range. -/
theorem char_toNat_ofNat {n : Nat} (h : n < 55296) : (Char.ofNat n).toNat = n := by
  rw [Char.ofNat, dif_pos (Or.inl h)]
  rfl

/-- ASCII lower-casing never produces an ASCII upper-case letter. -/
theorem asciiToLower_not_upper (c : Char) :
    (65 ≤ (asciiToLower c).toNat && (asciiToLower c).toNat ≤ 90) = false := by
  unfold asciiToLower
  by_cases h : (65 ≤ c.toNat && c.toNat ≤ 90) = true
  · rw [if_pos h]
    simp only [Bool.and_eq_true, decide_eq_true_eq] at h
    rw [char_toNat_ofNat (by omega)]
    simp only [Bool.and_eq_false_iff, decide_eq_false_iff_not]
    omega
  · rw [if_neg h]
    simp only [Bool.and_eq_true, decide_eq_true_eq, not_and, not_le] at h
    simp only [Bool.and_eq_false_iff, decide_eq_false_iff_not, not_le]
    omega

/-- Strings produced by `strToLower` contain no ASCII upper-case letter. -/
theorem noUpper_strToLower (s : String) : noUpper (strToLower s) = true := by
  unfold noUpper strToLower
  simp only [List.all_map, List.all_eq_true, Function.comp_apply, Bool.not_eq_eq_eq_not,
    Bool.not_true]
  intro c _
  exact asciiToLower_not_upper c

/-- A map that fixes every element of a list is the identity on it. -/
theorem map_fixed {α : Type} (f : α → α) :
    ∀ (l : List α), (∀ x ∈ l, f x = x) → l.map f = l
  | [], _ => rfl
  | x :: xs, h => by
    simp only [List.map_cons, h x (List.mem_cons_self x xs),
      map_fixed f xs (fun y hy => h y (List.mem_cons_of_mem x hy))]

/-! ## Claim C2 — idempotence of re-applied `Released` events

Spec: "Applying the same on-chain `Released` event twice leaves the Task in
`released` state with unchanged `released_at` (idempotence)."

The code (`onReleased` passing `time.Now()`, and `UpdateOnchainReleased`
unconditionally executing `SET status='released', released_at=$2,
onchain_tx_hash=$3`) keeps the status at `released` but OVERWRITES
`released_at` with the time at which the duplicate delivery is processed.
The claim fails whenever the two deliveries are processed at different
times; the nearby true statement is absorption: the second application
supersedes the first. -/

/-- A sample bytes32 topic (the task-hash topic). -/
def topicA : List Nat := List.replicate 32 171

/-- A second, different sample bytes32 topic. -/
def topicB : List Nat := List.replicate 32 205

/-- A sample transaction hash. -/
def sampleTx : List Nat := List.replicate 32 17

/-- An accepted-on-chain task whose hash matches `topicA`. -/
def taskC2 : TaskRow :=
  { taskID := "task-1", taskHash := taskHashFromTopic topicA, chainID := 11155111,
    escrowAddress := "0xescrow", employerAddress := "0xemp", employerSignature := "0xsig",
    workerAddress := "0xworker", amountWei := "1000", deadlineUnix := 99,
    title := "demo", status := TaskStatusAcceptedOnchain, indexerFeeBPS := 20,
    onchainCreatedAt := none, releasedAt := none, refundedAt := none,
    onchainTxHash := "", createdAt := 0, updatedAt := 0 }

/-- A `Released` log for `taskC2`'s hash. -/
def logC2 : EthLog :=
  { removed := false, blockNumber := 50, topics := [List.replicate 32 1, topicA],
    txHash := sampleTx }

/-- C2 counterexample: processing the same `Released` log first at time 5 and
again at time 7 leaves the status at `released` but changes `released_at`
from `some 5` to `some 7` — event application is NOT idempotent in
`released_at`. -/
theorem claim_C2_counterexample :
    ((onReleased [taskC2] logC2 5 5).map fun r => r.releasedAt) = [some 5]
  ∧ ((onReleased (onReleased [taskC2] logC2 5 5) logC2 7 7).map fun r => r.releasedAt) = [some 7]
  ∧ ((onReleased (onReleased [taskC2] logC2 5 5) logC2 7 7).map fun r => r.status)
      = [TaskStatusReleased] := by
  refine ⟨by decide, by decide, by decide⟩

/-- C2 amended: re-applying the same `Released` event leaves every matching
task in `released` state, but `released_at` (with the tx hash and
`updated_at`) is overwritten with the second processing time: the second
application absorbs the first, and `released_at` is unchanged only when the
two processing times coincide. -/
theorem claim_C2 (db : List TaskRow) (log : EthLog) (a1 n1 a2 n2 : Int) :
    onReleased (onReleased db log a1 n1) log a2 n2 = onReleased db log a2 n2
  ∧ (∀ r ∈ onReleased (onReleased db log a1 n1) log a2 n2,
      ∀ t0 t1 rest, log.topics = t0 :: t1 :: rest → r.taskHash = taskHashFromTopic t1 →
        r.status = TaskStatusReleased ∧ r.releasedAt = some a2) := by
  constructor
  · unfold onReleased
    cases htop : log.topics with
    | nil => rfl
    | cons t0 rest =>
      cases rest with
      | nil => rfl
      | cons t1 rest2 =>
        unfold updateOnchainReleased
        dsimp only
        rw [List.map_map]
        induction db with
        | nil => rfl
        | cons hd tl ih =>
          simp only [List.map_cons, List.cons.injEq]
          refine ⟨?_, ih⟩
          by_cases hh : hd.taskHash = taskHashFromTopic t1
          · simp [Function.comp, hh]
          · simp [Function.comp, hh]
  · intro r hr t0 t1 rest htop hmatch
    unfold onReleased at hr
    rw [htop] at hr
    simp only [updateOnchainReleased, List.map_map, List.mem_map, Function.comp] at hr
    obtain ⟨s, _hs, rfl⟩ := hr
    by_cases h1 : s.taskHash = taskHashFromTopic t1
    · simp [h1]
    · simp only [if_neg h1] at hmatch
      exact absurd hmatch h1

/-- The row `taskC2` becomes after both applications of `logC2`. -/
def taskC2rel : TaskRow :=
  { taskC2 with status := TaskStatusReleased, releasedAt := some 7,
                onchainTxHash := txHashHex logC2, updatedAt := 7 }

/-- Witness for `claim_C2` at the concrete double application of `logC2`. -/
theorem claim_C2_witness :
    taskC2rel ∈ onReleased (onReleased [taskC2] logC2 5 5) logC2 7 7
  ∧ taskC2rel.status = TaskStatusReleased ∧ taskC2rel.releasedAt = some 7 :=
  ⟨by decide, (claim_C2 [taskC2] logC2 5 5 7 7).2 taskC2rel (by decide)
      (List.replicate 32 1) topicA [] rfl (by decide)⟩

/-! ## Claim C7 — `Created` for an unknown `task_hash`

`onCreated` looks the task up by hash; on `ErrNotFound` (message "object
not found", which contains "not found") it logs the
`unexpected_onchain_create` audit line and returns: no row is inserted, no
row is updated, no error is raised.  The boolean in `onCreated`'s result is
that audit signal. -/

/-- C7: a `Created` log whose `taskHash` topic matches no stored task leaves
the store untouched and raises only the audit signal. -/
theorem claim_C7 (db : List TaskRow) (log : EthLog) (bt now : Int)
    (t0 t1 : List Nat) (rest : List (List Nat))
    (htop : log.topics = t0 :: t1 :: rest)
    (hmiss : getTaskByHash db (taskHashFromTopic t1) = none) :
    onCreated db log bt now = (db, true) := by
  unfold onCreated
  rw [htop]
  dsimp only
  rw [hmiss]

/-- A task whose hash matches `topicB`, not `topicA`. -/
def taskC7 : TaskRow :=
  { taskC2 with taskID := "task-7", taskHash := taskHashFromTopic topicB }

/-- A `Created` log carrying `topicA` as its task hash. -/
def logC7 : EthLog :=
  { removed := false, blockNumber := 60, topics := [List.replicate 32 2, topicA],
    txHash := sampleTx }

/-- Witness for `claim_C7`: the store holding only `taskC7` has no task with
`topicA`'s hash, and handling `logC7` returns it unchanged with the audit
signal raised. -/
theorem claim_C7_witness :
    getTaskByHash [taskC7] (taskHashFromTopic topicA) = none
  ∧ onCreated [taskC7] logC7 3 4 = ([taskC7], true) :=
  ⟨by decide, claim_C7 [taskC7] logC7 3 4 (List.replicate 32 2) topicA [] rfl (by decide)⟩

/-! ## Claim C10 — unknown-hash `WorkerSet`/`Released`/`Refunded` vanish

The three hash-keyed update statements (`UPDATE ... WHERE task_hash=$_`)
affect zero rows when no task matches, and `Exec` reports success, so the
handlers log their success line: no error, no audit signal, no inserted
row.  (In this pure model the handlers return only the store; the absence
of an audit channel in their types mirrors the absence of any audit log
branch in `onWorkerSet`/`onReleased`/`onRefunded`, in contrast to
`onCreated`.) -/

/-- C10: when no stored task has the log's task-hash topic, the
`WorkerSet`, `Released` and `Refunded` handlers leave the store exactly
unchanged and report success. -/
theorem claim_C10 (db : List TaskRow) (log : EthLog) (bt now : Int)
    (hmiss : ∀ r ∈ db, r.taskHash ≠ taskHashFromTopic (log.topics.getD 1 [])) :
    onWorkerSet db log now = db
  ∧ onReleased db log bt now = db
  ∧ onRefunded db log bt now = db := by
  refine ⟨?_, ?_, ?_⟩
  · unfold onWorkerSet
    cases htop : log.topics with
    | nil => rfl
    | cons t0 rest =>
      cases rest with
      | nil => rfl
      | cons t1 rest2 =>
        cases rest2 with
        | nil => rfl
        | cons t2 rest3 =>
          have h1 : log.topics.getD 1 [] = t1 := by rw [htop]; rfl
          unfold updateOnchainWorkerSet
          dsimp only
          apply map_fixed
          intro x hx
          have hne := hmiss x hx
          rw [h1] at hne
          exact if_neg hne
  · unfold onReleased
    cases htop : log.topics with
    | nil => rfl
    | cons t0 rest =>
      cases rest with
      | nil => rfl
      | cons t1 rest2 =>
        have h1 : log.topics.getD 1 [] = t1 := by rw [htop]; rfl
        unfold updateOnchainReleased
        dsimp only
        apply map_fixed
        intro x hx
        have hne := hmiss x hx
        rw [h1] at hne
        exact if_neg hne
  · unfold onRefunded
    cases htop : log.topics with
    | nil => rfl
    | cons t0 rest =>
      cases rest with
      | nil => rfl
      | cons t1 rest2 =>
        have h1 : log.topics.getD 1 [] = t1 := by rw [htop]; rfl
        unfold updateOnchainRefunded
        dsimp only
        apply map_fixed
        intro x hx
        have hne := hmiss x hx
        rw [h1] at hne
        exact if_neg hne

/-- A task (hash `topicA`) unrelated to `logC10`'s hash topic `topicB`. -/
def taskC10 : TaskRow := { taskC2 with taskID := "task-10" }

/-- A log whose task-hash topic `topicB` matches no stored task. -/
def logC10 : EthLog :=
  { removed := false, blockNumber := 70,
    topics := [List.replicate 32 3, topicB, List.replicate 32 4], txHash := sampleTx }

/-- Witness for `claim_C10` on a concrete store and log. -/
theorem claim_C10_witness :
    (∀ r ∈ [taskC10], r.taskHash ≠ taskHashFromTopic (logC10.topics.getD 1 []))
  ∧ onWorkerSet [taskC10] logC10 9 = [taskC10]
  ∧ onReleased [taskC10] logC10 8 9 = [taskC10]
  ∧ onRefunded [taskC10] logC10 8 9 = [taskC10] := by
  have h := claim_C10 [taskC10] logC10 8 9 (by decide)
  exact ⟨by decide, h.1, h.2.1, h.2.2⟩

/-! ## Claim C5 — `WorkerSet` is applied unconditionally

`UpdateOnchainWorkerSet` runs `UPDATE tasks SET worker_address=$1,
status='accepted_onchain', onchain_tx_hash=$3 WHERE task_hash=$4` with no
condition on the current status: any prior status (including the terminal
`released` and `refunded`) is overwritten. -/

/-- C5: for a stored task (at any position, with any prior status) whose
hash matches a `WorkerSet` log's hash topic, handling the log rewrites
exactly that row: `worker_address` is set to the (lower-cased, checksummed)
address of topic 2, the status becomes `accepted_onchain`, and the tx hash
and `updated_at` are stamped; every other field is kept. -/
theorem claim_C5 (db : List TaskRow) (log : EthLog) (now : Int)
    (t0 t1 t2 : List Nat) (rest : List (List Nat)) (i : Nat) (r : TaskRow)
    (htop : log.topics = t0 :: t1 :: t2 :: rest)
    (hget : db[i]? = some r)
    (hmatch : r.taskHash = taskHashFromTopic t1) :
    (onWorkerSet db log now)[i]? = some
      { r with workerAddress := strToLower (addressHex (bytesToAddress t2)),
               status := TaskStatusAcceptedOnchain,
               onchainTxHash := txHashHex log, updatedAt := now } := by
  unfold onWorkerSet
  rw [htop]
  dsimp only
  unfold updateOnchainWorkerSet
  rw [List.getElem?_map, hget, Option.map_some', if_pos hmatch]

/-- A released task (terminal state) whose hash matches `topicA`. -/
def taskC5 : TaskRow :=
  { taskC2 with taskID := "task-5", status := TaskStatusReleased, releasedAt := some 12 }

/-- A `WorkerSet` log for `topicA` carrying a worker address topic. -/
def logC5 : EthLog :=
  { removed := false, blockNumber := 80,
    topics := [List.replicate 32 5, topicA, List.replicate 12 0 ++ (List.range 20).map (16 + ·)],
    txHash := sampleTx }

/-- Witness for `claim_C5`: the event regresses the `released` task to
`accepted_onchain` and installs the event's worker address. -/
theorem claim_C5_witness :
    taskC5.status = TaskStatusReleased
  ∧ (onWorkerSet [taskC5] logC5 13)[0]? = some
      { taskC5 with
          workerAddress := strToLower (addressHex (bytesToAddress
            (List.replicate 12 0 ++ (List.range 20).map (16 + ·)))),
          status := TaskStatusAcceptedOnchain,
          onchainTxHash := txHashHex logC5, updatedAt := 13 } :=
  ⟨rfl, claim_C5 [taskC5] logC5 13 (List.replicate 32 5) topicA
      (List.replicate 12 0 ++ (List.range 20).map (16 + ·)) [] 0 taskC5
      rfl rfl (by decide)⟩

/-! ## Claim C6 — `Created` records the mirror fields and nothing else

`UpdateOnchainCreated` runs `UPDATE tasks SET onchain_created_at=$1,
onchain_tx_hash=$2, updated_at=now() WHERE task_id=$3`: the status and all
identity/content fields are untouched. -/

/-- C6: handling a `Created` log never changes the status, `task_id`,
`task_hash`, employer, worker, amount, deadline or title of any row; and
when a task with the log's hash exists, the row(s) with its `task_id`
receive `onchain_created_at = blockTime` and the log's tx hash. -/
theorem claim_C6 (db : List TaskRow) (log : EthLog) (bt now : Int) :
    (∀ (i : Nat) (r r' : TaskRow), db[i]? = some r → (onCreated db log bt now).1[i]? = some r' →
       r'.status = r.status ∧ r'.taskID = r.taskID ∧ r'.taskHash = r.taskHash ∧
       r'.employerAddress = r.employerAddress ∧ r'.workerAddress = r.workerAddress ∧
       r'.amountWei = r.amountWei ∧ r'.deadlineUnix = r.deadlineUnix ∧ r'.title = r.title)
  ∧ (∀ t0 t1 rest tk, log.topics = t0 :: t1 :: rest →
       getTaskByHash db (taskHashFromTopic t1) = some tk →
       ∀ (i : Nat) (r r' : TaskRow), db[i]? = some r → (onCreated db log bt now).1[i]? = some r' →
         r.taskID = tk.taskID →
         r'.onchainCreatedAt = some bt ∧ r'.onchainTxHash = txHashHex log) := by
  constructor
  · intro i r r' hget hget'
    unfold onCreated at hget'
    cases htop : log.topics with
    | nil =>
      rw [htop] at hget'
      dsimp only at hget'
      rw [hget] at hget'
      cases hget'
      exact ⟨rfl, rfl, rfl, rfl, rfl, rfl, rfl, rfl⟩
    | cons t0 rest =>
      cases rest with
      | nil =>
        rw [htop] at hget'
        dsimp only at hget'
        rw [hget] at hget'
        cases hget'
        exact ⟨rfl, rfl, rfl, rfl, rfl, rfl, rfl, rfl⟩
      | cons t1 rest2 =>
        rw [htop] at hget'
        dsimp only at hget'
        cases hfind : getTaskByHash db (taskHashFromTopic t1) with
        | none =>
          rw [hfind] at hget'
          dsimp only at hget'
          rw [hget] at hget'
          cases hget'
          exact ⟨rfl, rfl, rfl, rfl, rfl, rfl, rfl, rfl⟩
        | some tk =>
          rw [hfind] at hget'
          dsimp only at hget'
          unfold updateOnchainCreated at hget'
          rw [List.getElem?_map, hget, Option.map_some'] at hget'
          cases hget'
          by_cases hid : r.taskID = tk.taskID
          · rw [if_pos hid]
            exact ⟨rfl, rfl, rfl, rfl, rfl, rfl, rfl, rfl⟩
          · rw [if_neg hid]
            exact ⟨rfl, rfl, rfl, rfl, rfl, rfl, rfl, rfl⟩
  · intro t0 t1 rest tk htop hfind i r r' hget hget' hid
    unfold onCreated at hget'
    rw [htop] at hget'
    dsimp only at hget'
    rw [hfind] at hget'
    dsimp only at hget'
    unfold updateOnchainCreated at hget'
    rw [List.getElem?_map, hget, Option.map_some', if_pos hid] at hget'
    cases hget'
    exact ⟨rfl, rfl⟩

/-- A freshly created task matching `topicA`, before on-chain confirmation. -/
def taskC6 : TaskRow := { taskC2 with taskID := "task-6", status := TaskStatusCreated }

/-- A `Created` log for `topicA`. -/
def logC6 : EthLog :=
  { removed := false, blockNumber := 90, topics := [List.replicate 32 6, topicA],
    txHash := sampleTx }

/-- The row `taskC6` becomes after `logC6` is handled at times 21/22. -/
def taskC6done : TaskRow :=
  { taskC6 with onchainCreatedAt := some 21, onchainTxHash := txHashHex logC6,
                updatedAt := 22 }

/-- Witness for `claim_C6` on a concrete store and log: the status stays
`created` while `onchain_created_at` and the tx hash are recorded. -/
theorem claim_C6_witness :
    taskC6done.status = taskC6.status ∧ taskC6done.onchainCreatedAt = some 21 := by
  have h := claim_C6 [taskC6] logC6 21 22
  refine ⟨(h.1 0 taskC6 taskC6done rfl (by decide)).1, ?_⟩
  exact (h.2 (List.replicate 32 6) topicA [] taskC6 rfl (by decide) 0 taskC6 taskC6done rfl
    (by decide) rfl).1

/-! ## Claim C8 — confirmation gating in `handleLog`

With `minConfirmations > 0` the watcher fetches the chain head and drops
(without store access and without error) any log with
`head < logBlock + minConfirmations`; once that bound is met, the log is
dispatched to the handler selected by its first topic. -/

/-- The `Events["Created"].ID` as a byte literal (keccak256 of the canonical
signature). -/
theorem eventID_created :
    eventIDTopic .created =
      [48, 108, 171, 11, 29, 30, 194, 221, 171, 224, 147, 56, 8, 189, 157, 201,
       63, 153, 86, 0, 27, 138, 55, 126, 179, 117, 240, 70, 59, 73, 50, 20] := by
  decide

/-- The `Events["WorkerSet"].ID` as a byte literal. -/
theorem eventID_workerSet :
    eventIDTopic .workerSet =
      [167, 171, 151, 126, 131, 116, 254, 241, 189, 44, 5, 114, 7, 226, 205, 75,
       183, 23, 105, 254, 246, 102, 171, 130, 5, 237, 249, 124, 228, 250, 67, 6] := by
  decide

/-- The `Events["Released"].ID` as a byte literal. -/
theorem eventID_released :
    eventIDTopic .released =
      [110, 236, 45, 210, 56, 36, 39, 97, 109, 78, 167, 239, 24, 59, 22, 9,
       31, 234, 196, 226, 230, 60, 139, 85, 242, 82, 21, 241, 50, 223, 141, 20] := by
  decide

/-- The `Events["Refunded"].ID` as a byte literal. -/
theorem eventID_refunded :
    eventIDTopic .refunded =
      [254, 80, 152, 3, 192, 148, 22, 178, 143, 243, 216, 246, 144, 200, 176, 198,
       20, 98, 168, 146, 196, 109, 84, 48, 200, 251, 32, 171, 228, 114, 218, 240] := by
  decide

/-- The four event-signature topics are pairwise distinct. -/
theorem eventID_pairwise_ne (j k : EventKind) (h : j ≠ k) :
    eventIDTopic j ≠ eventIDTopic k := by
  cases j <;> cases k <;>
    simp_all [eventID_created, eventID_workerSet, eventID_released, eventID_refunded]

/-- C8: for a non-removed log under a positive confirmation requirement
(with the `uint64` addition not wrapping), `handleLog` defers the log —
touching no store — exactly while `head < logBlock + minConfirmations`, and
once `head ≥ logBlock + minConfirmations` it dispatches a log whose first
topic is one of the four event signatures to that event's handler. -/
theorem claim_C8 (minConfirmations : Int) (head : Nat) (log : EthLog) (k : EventKind)
    (hrem : log.removed = false) (hpos : 0 < minConfirmations)
    (hnowrap : log.blockNumber + minConfirmations.toNat < 18446744073709551616) :
    (head < log.blockNumber + minConfirmations.toNat →
      handleLog minConfirmations head log = .waitingConfirmations)
  ∧ (log.blockNumber + minConfirmations.toNat ≤ head →
      ∀ t0 rest, log.topics = t0 :: rest → t0 = eventIDTopic k →
      handleLog minConfirmations head log = .dispatched k) := by
  constructor
  · intro hlt
    unfold handleLog
    rw [hrem]
    rw [if_neg (by simp), if_pos]
    simp only [Bool.and_eq_true, decide_eq_true_eq]
    exact ⟨by simpa using hpos, by rw [Nat.mod_eq_of_lt hnowrap]; exact hlt⟩
  · intro hge t0 rest htop ht0
    unfold handleLog
    rw [hrem]
    rw [if_neg (by simp), if_neg, htop]
    · dsimp only
      subst ht0
      cases k with
      | created => rw [if_pos rfl]
      | workerSet =>
        rw [if_neg (eventID_pairwise_ne .workerSet .created (by simp)), if_pos rfl]
      | released =>
        rw [if_neg (eventID_pairwise_ne .released .created (by simp)),
            if_neg (eventID_pairwise_ne .released .workerSet (by simp)), if_pos rfl]
      | refunded =>
        rw [if_neg (eventID_pairwise_ne .refunded .created (by simp)),
            if_neg (eventID_pairwise_ne .refunded .workerSet (by simp)),
            if_neg (eventID_pairwise_ne .refunded .released (by simp)), if_pos rfl]
    · simp only [Bool.and_eq_true, decide_eq_true_eq, not_and]
      intro _
      rw [Nat.mod_eq_of_lt hnowrap]
      omega

/-- The `Released` signature topic as a byte literal. -/
def releasedIDBytes : List Nat :=
  [110, 236, 45, 210, 56, 36, 39, 97, 109, 78, 167, 239, 24, 59, 22, 9,
   31, 234, 196, 226, 230, 60, 139, 85, 242, 82, 21, 241, 50, 223, 141, 20]

/-- A confirmed `Released` log: first topic is the `Released` signature. -/
def logC8 : EthLog :=
  { removed := false, blockNumber := 99, topics := [releasedIDBytes, topicA],
    txHash := sampleTx }

/-- Witness for `claim_C8` with `minConfirmations = 2` and block 99: at head
100 (`100 < 101`) the log is deferred; at head 101 it is dispatched to the
`Released` handler. -/
theorem claim_C8_witness :
    handleLog 2 100 logC8 = .waitingConfirmations
  ∧ handleLog 2 101 logC8 = .dispatched .released :=
  ⟨(claim_C8 2 100 logC8 .released rfl (by decide) (by decide)).1 (by decide),
   (claim_C8 2 101 logC8 .released rfl (by decide) (by decide)).2 (by decide)
     releasedIDBytes [topicA] rfl (by rw [eventID_released]; rfl)⟩

/-! ## Inversion of a successful `PostTask` -/

/-- If `PostTask` reaches the insert, every validation gate passed and the
inserted row is exactly the one the handler builds: lower-cased hash,
address and signature, the escrow defaulted from the resolved chain when
omitted, status `created`, and the configured fee. -/
theorem postTask_created_inv (cfg : ApiConfig) (verify : SigVerifier) (req : CreateTaskReq)
    (now : Int) (t : TaskRow) (h : postTask cfg verify req now = .taskCreated t) :
    req.taskID ≠ "" ∧ req.chainID ≠ 0 ∧
    matchesHex 40 req.employerAddress = true ∧ matchesHex 64 req.taskHash = true ∧
    stringsEqualFold req.taskHash (keccak256Hex (utf8Bytes req.taskID)) = true ∧
    req.signature ≠ "" ∧ matchesHex 130 req.signature = true ∧
    ∃ c, cfg.supportedChains.find? (fun c => c.chainID == req.chainID) = some c ∧
      t = { taskID := req.taskID
            taskHash := strToLower req.taskHash
            chainID := req.chainID
            escrowAddress :=
              if req.escrowAddress = "" then c.settlementContract else req.escrowAddress
            employerAddress := strToLower req.employerAddress
            employerSignature := strToLower req.signature
            workerAddress := ""
            amountWei := trimSpace req.amountWei
            deadlineUnix := req.deadlineUnix
            title := req.title
            status := TaskStatusCreated
            indexerFeeBPS := cfg.feeBPS
            onchainCreatedAt := none
            releasedAt := none
            refundedAt := none
            onchainTxHash := ""
            createdAt := now
            updatedAt := now } := by
  simp only [postTask] at h
  by_cases h1 : req.taskID = ""
  · rw [if_pos h1] at h; exact PostTaskResult.noConfusion h
  rw [if_neg h1] at h
  by_cases h2 : req.chainID = 0
  · rw [if_pos h2] at h; exact PostTaskResult.noConfusion h
  rw [if_neg h2] at h
  by_cases h3 : (!matchesHex 40 req.employerAddress) = true
  · rw [if_pos h3] at h; exact PostTaskResult.noConfusion h
  rw [if_neg h3] at h
  by_cases h4 : (!matchesHex 64 req.taskHash) = true
  · rw [if_pos h4] at h; exact PostTaskResult.noConfusion h
  rw [if_neg h4] at h
  cases hamt : bigIntSetString10 (trimSpace req.amountWei) with
  | none => rw [hamt] at h; exact PostTaskResult.noConfusion h
  | some a =>
    rw [hamt] at h
    dsimp only at h
    by_cases h6 : a ≤ 0
    · rw [if_pos h6] at h; exact PostTaskResult.noConfusion h
    rw [if_neg h6] at h
    by_cases h7 : (decide (req.deadlineUnix ≤ 0) ||
        decide (req.deadlineUnix > 4611686018427387904)) = true
    · rw [if_pos h7] at h; exact PostTaskResult.noConfusion h
    rw [if_neg h7] at h
    by_cases h8 : (!stringsEqualFold req.taskHash (keccak256Hex (utf8Bytes req.taskID))) = true
    · rw [if_pos h8] at h; exact PostTaskResult.noConfusion h
    rw [if_neg h8] at h
    by_cases h9 : req.signature = ""
    · rw [if_pos h9] at h; exact PostTaskResult.noConfusion h
    rw [if_neg h9] at h
    by_cases h10 : (!matchesHex 130 req.signature) = true
    · rw [if_pos h10] at h; exact PostTaskResult.noConfusion h
    rw [if_neg h10] at h
    cases hver : verify (utf8Bytes req.taskID) req.signature req.employerAddress with
    | signerMismatch => rw [hver] at h; exact PostTaskResult.noConfusion h
    | invalidSig => rw [hver] at h; exact PostTaskResult.noConfusion h
    | otherError m => rw [hver] at h; exact PostTaskResult.noConfusion h
    | ok =>
      rw [hver] at h
      dsimp only at h
      cases hfind : cfg.supportedChains.find? (fun c => c.chainID == req.chainID) with
      | none => rw [hfind] at h; exact PostTaskResult.noConfusion h
      | some c =>
        rw [hfind] at h
        dsimp only at h
        injection h with hrow
        refine ⟨h1, h2, by simpa using h3, by simpa using h4, by simpa using h8,
          h9, by simpa using h10, c, rfl, hrow.symm⟩

/-! ## Claim C9 — the `task_hash` derivation check

`PostTask` accepts a request only when `task_hash` is case-insensitively
equal (`strings.EqualFold`) to `keccak256Hex([]byte(task_id))`; any other
shape-valid value takes the `task_hash mismatch` branch reporting the
expected and the received value. -/

/-- C9: a stored task's hash always passed `EqualFold` against
`keccak256Hex(utf8(task_id))` (first conjunct), and once the earlier field
checks pass, a hash failing `EqualFold` is rejected with the
`task_hash mismatch: expected ..., got ...` InvalidRequest (second
conjunct). -/
theorem claim_C9 (cfg : ApiConfig) (verify : SigVerifier) (req : CreateTaskReq) (now : Int) :
    (∀ t, postTask cfg verify req now = .taskCreated t →
      stringsEqualFold req.taskHash (keccak256Hex (utf8Bytes req.taskID)) = true)
  ∧ (req.taskID ≠ "" → req.chainID ≠ 0 →
      matchesHex 40 req.employerAddress = true → matchesHex 64 req.taskHash = true →
      (∃ a, bigIntSetString10 (trimSpace req.amountWei) = some a ∧ 0 < a) →
      0 < req.deadlineUnix → req.deadlineUnix ≤ 4611686018427387904 →
      stringsEqualFold req.taskHash (keccak256Hex (utf8Bytes req.taskID)) = false →
      postTask cfg verify req now = .apiError 400 "invalid_request"
        ("task_hash mismatch: expected " ++ keccak256Hex (utf8Bytes req.taskID) ++
          ", got " ++ req.taskHash)) := by
  constructor
  · exact fun t h => (postTask_created_inv cfg verify req now t h).2.2.2.2.1
  · rintro h1 h2 h3 h4 ⟨a, hamt, hapos⟩ hd1 hd2 hfold
    simp only [postTask]
    rw [if_neg h1, if_neg h2, if_neg (by simp [h3]), if_neg (by simp [h4]), hamt]
    dsimp only
    rw [if_neg (by omega), if_neg (by
      simp only [Bool.or_eq_true, decide_eq_true_eq, not_or, not_lt]
      omega)]
    rw [if_pos (by simp [hfold])]

/-- The configuration the handler witnesses run against: one supported
chain (Sepolia) with the default settlement contract and fee. -/
def cfgW : ApiConfig :=
  { supportedChains :=
      [{ chainID := 11155111,
         settlementContract := "0xf2223eA479736FA2c70fa0BB1430346D937C7C3C",
         minConfirmations := 2 }],
    feeBPS := 20 }

/-- A verifier that accepts (the verification outcome is irrelevant to the
branches these witnesses exercise, or is fixed to success). -/
def verifyOK : SigVerifier := fun _ _ _ => .ok

/-- keccak256Hex of the UTF-8 bytes of `"t"`, the sample `task_id`. -/
theorem keccakHex_t :
    keccak256Hex (utf8Bytes "t") =
      "0xcac1bb71f0a97c8ac94ca9546b43178a9ad254c7b757ac07433aa6df35cd8089" := by
  decide

/-- A fully valid task-creation request for `task_id = "t"` (escrow omitted,
so the configured settlement contract is used). -/
def reqC9 : CreateTaskReq :=
  { taskID := "t", title := "demo", chainID := 11155111,
    amountWei := "1000000000000000000", deadlineUnix := 1900000000,
    employerAddress := "0xaaaaaaaaaaaaaaaaaaaaaaaaaaaaaaaaaaaaaaaa",
    taskHash := "0xcac1bb71f0a97c8ac94ca9546b43178a9ad254c7b757ac07433aa6df35cd8089",
    escrowAddress := "",
    signature := "0xaaaaaaaaaaaaaaaaaaaaaaaaaaaaaaaaaaaaaaaaaaaaaaaaaaaaaaaaaaaaaaaaaaaaaaaaaaaaaaaaaaaaaaaaaaaaaaaaaaaaaaaaaaaaaaaaaaaaaaaaaaaaaaaaaa" }

/-- The same request with a shape-valid but underived `task_hash`. -/
def reqC9bad : CreateTaskReq :=
  { reqC9 with
    taskHash := "0x0000000000000000000000000000000000000000000000000000000000000000" }

/-- The row `PostTask` inserts for `reqC9`. -/
def tC9 : TaskRow :=
  { taskID := "t",
    taskHash := "0xcac1bb71f0a97c8ac94ca9546b43178a9ad254c7b757ac07433aa6df35cd8089",
    chainID := 11155111,
    escrowAddress := "0xf2223eA479736FA2c70fa0BB1430346D937C7C3C",
    employerAddress := "0xaaaaaaaaaaaaaaaaaaaaaaaaaaaaaaaaaaaaaaaa",
    employerSignature := "0xaaaaaaaaaaaaaaaaaaaaaaaaaaaaaaaaaaaaaaaaaaaaaaaaaaaaaaaaaaaaaaaaaaaaaaaaaaaaaaaaaaaaaaaaaaaaaaaaaaaaaaaaaaaaaaaaaaaaaaaaaaaaaaaaaa",
    workerAddress := "", amountWei := "1000000000000000000", deadlineUnix := 1900000000,
    title := "demo", status := TaskStatusCreated, indexerFeeBPS := 20,
    onchainCreatedAt := none, releasedAt := none, refundedAt := none,
    onchainTxHash := "", createdAt := 0, updatedAt := 0 }

/-- Witness for `claim_C9`: `reqC9` (derived hash) is accepted and its hash
passed the fold; `reqC9bad` (all-zero hash) is rejected with the mismatch
InvalidRequest. -/
theorem claim_C9_witness :
    postTask cfgW verifyOK reqC9 0 = .taskCreated tC9
  ∧ stringsEqualFold reqC9.taskHash (keccak256Hex (utf8Bytes reqC9.taskID)) = true
  ∧ postTask cfgW verifyOK reqC9bad 0 = .apiError 400 "invalid_request"
      ("task_hash mismatch: expected " ++ keccak256Hex (utf8Bytes reqC9bad.taskID) ++
        ", got " ++ reqC9bad.taskHash) := by
  have hcreated : postTask cfgW verifyOK reqC9 0 = .taskCreated tC9 := by decide
  refine ⟨hcreated, (claim_C9 cfgW verifyOK reqC9 0).1 tC9 hcreated, ?_⟩
  exact (claim_C9 cfgW verifyOK reqC9bad 0).2 (by decide) (by decide) (by decide) (by decide)
    ⟨1000000000000000000, by decide, by decide⟩ (by decide) (by decide)
    (by show stringsEqualFold reqC9bad.taskHash (keccak256Hex (utf8Bytes "t")) = false
        rw [keccakHex_t]
        decide)

/-! ## Claim C1 — classification of malformed signatures

The spec asserts any signature failure — including a present but malformed
(not `0x`+130-hex) signature — is classified `Unauthorized`.  In the code
only a MISSING signature and a recovery/mismatch failure get
`unauthorized` (401); the shape check `reHexSig` (run by the handler before
calling `ethutil`) reports `invalid_request` (400) in both `PostTask`
(lines 122-125) and `PostTaskAccept` (lines 276-279). -/

/-- C1 counterexample: an accept submission whose signature is present but
malformed (`"0xzz"`) is classified `invalid_request` (HTTP 400), not
`unauthorized`. -/
theorem claim_C1_counterexample :
    postTaskAccept verifyOK [] "task-1"
      { acceptID := "a1",
        workerAddress := "0xaaaaaaaaaaaaaaaaaaaaaaaaaaaaaaaaaaaaaaaa",
        signature := "0xzz" }
      = .apiError 400 "invalid_request" "signature must be 0x + 130 hex chars" := by
  decide

/-- C1 amended: a MISSING signature is classified `unauthorized` (401), but
a present-but-malformed signature (failing the `0x`+130-hex shape check) is
classified `invalid_request` (400), in both the accept and the
task-creation handler. -/
theorem claim_C1 (cfg : ApiConfig) (verify : SigVerifier) (db : List TaskRow)
    (taskID : String) (r : AcceptTaskReq) (q : CreateTaskReq) (now : Int) :
    (r.acceptID ≠ "" → matchesHex 40 r.workerAddress = true → r.signature ≠ "" →
      matchesHex 130 r.signature = false →
      postTaskAccept verify db taskID r
        = .apiError 400 "invalid_request" "signature must be 0x + 130 hex chars")
  ∧ (r.acceptID ≠ "" → matchesHex 40 r.workerAddress = true → r.signature = "" →
      postTaskAccept verify db taskID r
        = .apiError 401 "unauthorized" "signature is required")
  ∧ (q.taskID ≠ "" → q.chainID ≠ 0 → matchesHex 40 q.employerAddress = true →
      matchesHex 64 q.taskHash = true →
      (∃ a, bigIntSetString10 (trimSpace q.amountWei) = some a ∧ 0 < a) →
      0 < q.deadlineUnix → q.deadlineUnix ≤ 4611686018427387904 →
      stringsEqualFold q.taskHash (keccak256Hex (utf8Bytes q.taskID)) = true →
      q.signature ≠ "" → matchesHex 130 q.signature = false →
      postTask cfg verify q now
        = .apiError 400 "invalid_request" "signature must be 0x + 130 hex chars")
  ∧ (q.taskID ≠ "" → q.chainID ≠ 0 → matchesHex 40 q.employerAddress = true →
      matchesHex 64 q.taskHash = true →
      (∃ a, bigIntSetString10 (trimSpace q.amountWei) = some a ∧ 0 < a) →
      0 < q.deadlineUnix → q.deadlineUnix ≤ 4611686018427387904 →
      stringsEqualFold q.taskHash (keccak256Hex (utf8Bytes q.taskID)) = true →
      q.signature = "" →
      postTask cfg verify q now = .apiError 401 "unauthorized" "signature is required") := by
  refine ⟨?_, ?_, ?_, ?_⟩
  · intro hA hW hS hShape
    simp only [postTaskAccept]
    rw [if_neg hA, if_neg (by simp [hW]), if_neg hS, if_pos (by simp [hShape])]
  · intro hA hW hS
    simp only [postTaskAccept]
    rw [if_neg hA, if_neg (by simp [hW]), if_pos hS]
  · rintro h1 h2 h3 h4 ⟨a, hamt, hapos⟩ hd1 hd2 hfold h9 h10
    simp only [postTask]
    rw [if_neg h1, if_neg h2, if_neg (by simp [h3]), if_neg (by simp [h4]), hamt]
    dsimp only
    rw [if_neg (by omega), if_neg (by
      simp only [Bool.or_eq_true, decide_eq_true_eq, not_or, not_lt]
      omega)]
    rw [if_neg (by simp [hfold]), if_neg h9, if_pos (by simp [h10])]
  · rintro h1 h2 h3 h4 ⟨a, hamt, hapos⟩ hd1 hd2 hfold h9
    simp only [postTask]
    rw [if_neg h1, if_neg h2, if_neg (by simp [h3]), if_neg (by simp [h4]), hamt]
    dsimp only
    rw [if_neg (by omega), if_neg (by
      simp only [Bool.or_eq_true, decide_eq_true_eq, not_or, not_lt]
      omega)]
    rw [if_neg (by simp [hfold]), if_pos h9]

/-- An accept request with a present but malformed signature. -/
def reqAccC1 : AcceptTaskReq :=
  { acceptID := "a1", workerAddress := "0xaaaaaaaaaaaaaaaaaaaaaaaaaaaaaaaaaaaaaaaa",
    signature := "0xzz" }

/-- The same accept request with the signature missing entirely. -/
def reqAccC1b : AcceptTaskReq := { reqAccC1 with signature := "" }

/-- The `reqC9` with a present but malformed signature. -/
def reqC1 : CreateTaskReq := { reqC9 with signature := "0xzz" }

/-- The `reqC9` with the signature missing entirely. -/
def reqC1b : CreateTaskReq := { reqC9 with signature := "" }

/-- Witness for `claim_C1` on all four branches. -/
theorem claim_C1_witness :
    postTaskAccept verifyOK [] "task-1" reqAccC1
      = .apiError 400 "invalid_request" "signature must be 0x + 130 hex chars"
  ∧ postTaskAccept verifyOK [] "task-1" reqAccC1b
      = .apiError 401 "unauthorized" "signature is required"
  ∧ postTask cfgW verifyOK reqC1 0
      = .apiError 400 "invalid_request" "signature must be 0x + 130 hex chars"
  ∧ postTask cfgW verifyOK reqC1b 0
      = .apiError 401 "unauthorized" "signature is required" := by
  have hfold : stringsEqualFold reqC9.taskHash (keccak256Hex (utf8Bytes "t")) = true := by
    rw [keccakHex_t]; decide
  refine ⟨(claim_C1 cfgW verifyOK [] "task-1" reqAccC1 reqC1 0).1
      (by decide) (by decide) (by decide) (by decide),
    (claim_C1 cfgW verifyOK [] "task-1" reqAccC1b reqC1 0).2.1
      (by decide) (by decide) (by decide),
    (claim_C1 cfgW verifyOK [] "task-1" reqAccC1 reqC1 0).2.2.1
      (by decide) (by decide) (by decide) (by decide)
      ⟨1000000000000000000, by decide, by decide⟩ (by decide) (by decide) hfold
      (by decide) (by decide),
    (claim_C1 cfgW verifyOK [] "task-1" reqAccC1 reqC1b 0).2.2.2
      (by decide) (by decide) (by decide) (by decide)
      ⟨1000000000000000000, by decide, by decide⟩ (by decide) (by decide) hfold
      (by decide)⟩

/-! ## Claim C3 — order of the task validator's checks

The spec places the supported-chain membership check second, right after
`task_id`.  In the code only `chain_id != 0` is checked second; the
membership check against `cfg.SupportedChains` (the one that enumerates the
supported ids) runs LAST, after the address/hash/amount/deadline checks and
after signature verification (lines 136-156). -/

/-- C3 counterexample: a request with non-empty `task_id` and unsupported
`chain_id = 999` but a malformed `employer_address` is rejected with the
employer-address `InvalidRequest`, not with the supported-chain enumeration
the claim requires. -/
theorem claim_C3_counterexample :
    postTask cfgW verifyOK
      { taskID := "t1", title := "", chainID := 999, amountWei := "",
        deadlineUnix := 0, employerAddress := "bad", taskHash := "",
        escrowAddress := "", signature := "" } 0
      = .apiError 400 "invalid_request" "employer_address must be 0x + 40 hex chars"
  ∧ postTask cfgW verifyOK
      { taskID := "t1", title := "", chainID := 999, amountWei := "",
        deadlineUnix := 0, employerAddress := "bad", taskHash := "",
        escrowAddress := "", signature := "" } 0
      ≠ .apiError 400 "invalid_request" (chainNotSupportedMsg cfgW 999) := by
  exact ⟨by decide, by decide⟩

/-- C3 amended: after `task_id` the validator only checks `chain_id != 0`;
the supported-chain membership check (enumerating the supported ids) runs
last, once the employer-address, hash-shape, amount, deadline, hash-match
and signature checks have all passed — an unsupported `chain_id` yields the
enumerating `InvalidRequest` only then, while e.g. a malformed
`employer_address` is reported first regardless of the chain. -/
theorem claim_C3 (cfg : ApiConfig) (verify : SigVerifier) (req : CreateTaskReq) (now : Int) :
    (req.taskID ≠ "" → req.chainID ≠ 0 → matchesHex 40 req.employerAddress = false →
      postTask cfg verify req now
        = .apiError 400 "invalid_request" "employer_address must be 0x + 40 hex chars")
  ∧ (req.taskID ≠ "" → req.chainID ≠ 0 → matchesHex 40 req.employerAddress = true →
      matchesHex 64 req.taskHash = true →
      (∃ a, bigIntSetString10 (trimSpace req.amountWei) = some a ∧ 0 < a) →
      0 < req.deadlineUnix → req.deadlineUnix ≤ 4611686018427387904 →
      stringsEqualFold req.taskHash (keccak256Hex (utf8Bytes req.taskID)) = true →
      req.signature ≠ "" → matchesHex 130 req.signature = true →
      verify (utf8Bytes req.taskID) req.signature req.employerAddress = .ok →
      cfg.supportedChains.find? (fun c => c.chainID == req.chainID) = none →
      postTask cfg verify req now
        = .apiError 400 "invalid_request" (chainNotSupportedMsg cfg req.chainID)) := by
  constructor
  · intro h1 h2 h3
    simp only [postTask]
    rw [if_neg h1, if_neg h2, if_pos (by simp [h3])]
  · rintro h1 h2 h3 h4 ⟨a, hamt, hapos⟩ hd1 hd2 hfold h9 h10 hver hfind
    simp only [postTask]
    rw [if_neg h1, if_neg h2, if_neg (by simp [h3]), if_neg (by simp [h4]), hamt]
    dsimp only
    rw [if_neg (by omega), if_neg (by
      simp only [Bool.or_eq_true, decide_eq_true_eq, not_or, not_lt]
      omega)]
    rw [if_neg (by simp [hfold]), if_neg h9, if_neg (by simp [h10]), hver]
    dsimp only
    rw [hfind]

/-- The `reqC9` with an unsupported `chain_id`. -/
def reqC3 : CreateTaskReq := { reqC9 with chainID := 999 }

/-- Witness for `claim_C3`: the fully valid request `reqC3` on unsupported
chain 999 reaches the enumerating chain error — only after all other
checks pass. -/
theorem claim_C3_witness :
    postTask cfgW verifyOK reqC3 0
      = .apiError 400 "invalid_request" (chainNotSupportedMsg cfgW 999)
  ∧ postTask cfgW verifyOK { reqC3 with employerAddress := "bad" } 0
      = .apiError 400 "invalid_request" "employer_address must be 0x + 40 hex chars" := by
  have hfold : stringsEqualFold reqC3.taskHash (keccak256Hex (utf8Bytes "t")) = true := by
    rw [keccakHex_t]; decide
  exact ⟨(claim_C3 cfgW verifyOK reqC3 0).2 (by decide) (by decide) (by decide) (by decide)
      ⟨1000000000000000000, by decide, by decide⟩ (by decide) (by decide) hfold
      (by decide) (by decide) rfl (by decide),
    (claim_C3 cfgW verifyOK { reqC3 with employerAddress := "bad" } 0).1
      (by decide) (by decide) (by decide)⟩

/-! ## Inversion of a successful `PostTaskAccept` -/

/-- If `PostTaskAccept` reaches the insert, the stored accept row is
exactly the one the handler builds: the request ids and the lower-cased
worker address and signature. -/
theorem postTaskAccept_created_inv (verify : SigVerifier) (db : List TaskRow)
    (taskID : String) (r : AcceptTaskReq) (a : Accept)
    (h : postTaskAccept verify db taskID r = .acceptCreated a) :
    a = { acceptID := r.acceptID, taskID := taskID,
          workerAddress := strToLower r.workerAddress,
          workerSignature := strToLower r.signature } := by
  simp only [postTaskAccept] at h
  by_cases h1 : r.acceptID = ""
  · rw [if_pos h1] at h; exact PostAcceptResult.noConfusion h
  rw [if_neg h1] at h
  by_cases h2 : (!matchesHex 40 r.workerAddress) = true
  · rw [if_pos h2] at h; exact PostAcceptResult.noConfusion h
  rw [if_neg h2] at h
  by_cases h3 : r.signature = ""
  · rw [if_pos h3] at h; exact PostAcceptResult.noConfusion h
  rw [if_neg h3] at h
  by_cases h4 : (!matchesHex 130 r.signature) = true
  · rw [if_pos h4] at h; exact PostAcceptResult.noConfusion h
  rw [if_neg h4] at h
  cases hver : verify (utf8Bytes (taskID ++ r.acceptID)) r.signature r.workerAddress with
  | signerMismatch => rw [hver] at h; exact PostAcceptResult.noConfusion h
  | invalidSig => rw [hver] at h; exact PostAcceptResult.noConfusion h
  | otherError m => rw [hver] at h; exact PostAcceptResult.noConfusion h
  | ok =>
    rw [hver] at h
    dsimp only at h
    cases hget : getTask db taskID with
    | none => rw [hget] at h; exact PostAcceptResult.noConfusion h
    | some task =>
      rw [hget] at h
      dsimp only at h
      by_cases h5 : task.status ≠ TaskStatusCreated
      · rw [if_pos h5] at h; exact PostAcceptResult.noConfusion h
      rw [if_neg h5] at h
      injection h with hr
      exact hr.symm

/-! ## Claim C4 — lower-casing of stored addresses and signatures

The handlers store `strings.ToLower` of `task_hash`, `employer_address`
and the employer signature on tasks, and of `worker_address` and the
worker signature on accepts; the watcher stores
`strings.ToLower(common.Address.Hex())` on `WorkerSet`.  But
`escrow_address` is never lower-cased (and never shape-checked): the
request value (or the configured settlement contract) is stored verbatim,
so the claim fails for `escrow_address`. -/

/-- The `reqC9` with an upper-case escrow address supplied by the client. -/
def reqC4 : CreateTaskReq :=
  { reqC9 with escrowAddress := "0xEEEEeeeeEEEEeeeeEEEEeeeeEEEEeeeeEEEEeeee" }

/-- The row `PostTask` inserts for `reqC4`. -/
def tC4 : TaskRow :=
  { tC9 with escrowAddress := "0xEEEEeeeeEEEEeeeeEEEEeeeeEEEEeeeeEEEEeeee" }

/-- C4 counterexample: the accepted submission `reqC4` stores its
`escrow_address` with upper-case letters intact — the stored row is NOT
fully lower-cased. -/
theorem claim_C4_counterexample :
    postTask cfgW verifyOK reqC4 0 = .taskCreated tC4
  ∧ noUpper tC4.escrowAddress = false := by
  exact ⟨by decide, by decide⟩

/-- C4 amended: every accepted task stores `task_hash`,
`employer_address` and `employer_signature` lower-cased and stores
`escrow_address` exactly as provided (un-normalised); every accepted
acceptance stores `worker_address` and `worker_signature` lower-cased; a
`WorkerSet` event stores a lower-cased worker address. -/
theorem claim_C4 (cfg : ApiConfig) (verify : SigVerifier) (req : CreateTaskReq)
    (now : Int) (db : List TaskRow) (taskID : String) (r : AcceptTaskReq) (log : EthLog) :
    (∀ t, postTask cfg verify req now = .taskCreated t →
      noUpper t.taskHash = true ∧ noUpper t.employerAddress = true ∧
      noUpper t.employerSignature = true ∧
      (req.escrowAddress ≠ "" → t.escrowAddress = req.escrowAddress))
  ∧ (∀ a, postTaskAccept verify db taskID r = .acceptCreated a →
      noUpper a.workerAddress = true ∧ noUpper a.workerSignature = true)
  ∧ (∀ (i : Nat) (x x' : TaskRow) (t0 t1 t2 : List Nat) (rest : List (List Nat)),
      log.topics = t0 :: t1 :: t2 :: rest →
      db[i]? = some x → (onWorkerSet db log now)[i]? = some x' →
      x.taskHash = taskHashFromTopic t1 →
      noUpper x'.workerAddress = true) := by
  refine ⟨?_, ?_, ?_⟩
  · intro t h
    obtain ⟨-, -, -, -, -, -, -, c, -, ht⟩ := postTask_created_inv cfg verify req now t h
    subst ht
    refine ⟨noUpper_strToLower _, noUpper_strToLower _, noUpper_strToLower _, ?_⟩
    intro hesc
    exact if_neg hesc
  · intro a h
    have ha := postTaskAccept_created_inv verify db taskID r a h
    subst ha
    exact ⟨noUpper_strToLower _, noUpper_strToLower _⟩
  · intro i x x' t0 t1 t2 rest htop hget hget' hmatch
    unfold onWorkerSet at hget'
    rw [htop] at hget'
    dsimp only at hget'
    unfold updateOnchainWorkerSet at hget'
    rw [List.getElem?_map, hget, Option.map_some', if_pos hmatch] at hget'
    cases hget'
    exact noUpper_strToLower _

/-- An accept request with upper-case hex in both the worker address and
the signature. -/
def reqAccC4 : AcceptTaskReq :=
  { acceptID := "a4", workerAddress := "0xAAAAAAAAAAAAAAAAAAAAAAAAAAAAAAAAAAAAAAAA",
    signature := "0xAAAAAAAAAAAAAAAAAAAAAAAAAAAAAAAAAAAAAAAAAAAAAAAAAAAAAAAAAAAAAAAAAAAAAAAAAAAAAAAAAAAAAAAAAAAAAAAAAAAAAAAAAAAAAAAAAAAAAAAAAAAAAAAAAA" }

/-- A task in `created` state accepting `reqAccC4`. -/
def taskAcc : TaskRow := { taskC2 with taskID := "task-acc", status := TaskStatusCreated }

/-- The accept row `PostTaskAccept` inserts for `reqAccC4`. -/
def accC4 : Accept :=
  { acceptID := "a4", taskID := "task-acc",
    workerAddress := "0xaaaaaaaaaaaaaaaaaaaaaaaaaaaaaaaaaaaaaaaa",
    workerSignature := "0xaaaaaaaaaaaaaaaaaaaaaaaaaaaaaaaaaaaaaaaaaaaaaaaaaaaaaaaaaaaaaaaaaaaaaaaaaaaaaaaaaaaaaaaaaaaaaaaaaaaaaaaaaaaaaaaaaaaaaaaaaaaaaaaaaa" }

/-- Witness for `claim_C4` on the three storage paths. -/
theorem claim_C4_witness :
    postTask cfgW verifyOK reqC4 0 = .taskCreated tC4
  ∧ noUpper tC4.taskHash = true ∧ noUpper tC4.employerSignature = true
  ∧ tC4.escrowAddress = reqC4.escrowAddress
  ∧ postTaskAccept verifyOK [taskAcc] "task-acc" reqAccC4 = .acceptCreated accC4
  ∧ noUpper accC4.workerAddress = true ∧ noUpper accC4.workerSignature = true
  ∧ noUpper (strToLower (addressHex (bytesToAddress
      (List.replicate 12 0 ++ (List.range 20).map (16 + ·))))) = true := by
  have hcreated : postTask cfgW verifyOK reqC4 0 = .taskCreated tC4 := by decide
  have hacc : postTaskAccept verifyOK [taskAcc] "task-acc" reqAccC4 = .acceptCreated accC4 := by
    decide
  have h4 := claim_C4 cfgW verifyOK reqC4 0 [taskC5] "task-acc" reqAccC4 logC5
  have hpost := h4.1 tC4 hcreated
  have haccL := (claim_C4 cfgW verifyOK reqC4 0 [taskAcc] "task-acc" reqAccC4 logC5).2.1
    accC4 hacc
  have hws := h4.2.2 0 taskC5
    { taskC5 with
        workerAddress := strToLower (addressHex (bytesToAddress
          (List.replicate 12 0 ++ (List.range 20).map (16 + ·)))),
        status := TaskStatusAcceptedOnchain,
        onchainTxHash := txHashHex logC5, updatedAt := 0 }
    (List.replicate 32 5) topicA (List.replicate 12 0 ++ (List.range 20).map (16 + ·)) []
    rfl rfl rfl (by decide)
  exact ⟨hcreated, hpost.1, hpost.2.2.1, hpost.2.2.2 (by decide), hacc, haccL.1, haccL.2, hws⟩
